import Mathlib

/-!
Verification of the ccstatus settings-file mutation engine.

This file gives a shallow embedding of the Go sources of the ccstatus
repository: the settings store, the backup manager, the statusline-entry
editor (both observed implementation variants) and the install/uninstall
workflows, together with theorems settling the specification claims.

Conventions of the embedding:
* JSON values are modelled by the inductive `JValue`; a Go `map[string]any`
  is modelled as an association list `List (String × JValue)` manipulated
  through `getKey`, `setKey` and `delKey`, which mirror Go map lookup,
  assignment and `delete`.
* The file system is modelled as an association list from paths to raw
  file contents (`FS`); a missing key is a missing file.
* The JSON syntax layer (`encoding/json`) is split into an abstract byte
  parser `parse : String → Option JValue`, passed as a parameter, and the
  shape analysis that `json.Unmarshal` performs on the parsed value, which
  is embedded explicitly (`goUnmarshalMap`, `goUnmarshalCC`).
* Errors are mapped onto the error taxonomy of the specification
  (`GoError`); each constructor is documented with the Go error message it
  stands for.
-/

set_option autoImplicit false

namespace CCStatus

/-- A JSON value: object, array, string, number, boolean or null.
Numbers are abstracted as integers; no claim inspects numeric values. -/
inductive JValue : Type where
  | null : JValue
  | jbool : Bool → JValue
  | jnum : Int → JValue
  | jstr : String → JValue
  | jarr : List JValue → JValue
  | jobj : List (String × JValue) → JValue
deriving Repr

/-- Is this JSON value an object? -/
def isObjVal : JValue → Bool
  | .jobj _ => true
  | _ => false

/-- Go map lookup `v, ok := m[k]`: the value at the first matching key. -/
def getKey {α : Type} : List (String × α) → String → Option α
  | [], _ => none
  | (k', v) :: rest, k => if k' = k then some v else getKey rest k

/-- Go map assignment `m[k] = v`: replace the first entry with key `k`
in place, or append a new entry. -/
def setKey {α : Type} : List (String × α) → String → α → List (String × α)
  | [], k, v => [(k, v)]
  | (k', v') :: rest, k, v =>
      if k' = k then (k, v) :: rest else (k', v') :: setKey rest k v

/-- Go map deletion `delete(m, k)`: drop every entry with key `k`. -/
def delKey {α : Type} : List (String × α) → String → List (String × α)
  | [], _ => []
  | (k', v') :: rest, k =>
      if k' = k then delKey rest k else (k', v') :: delKey rest k

theorem getKey_setKey_self {α : Type} (l : List (String × α)) (k : String) (v : α) :
    getKey (setKey l k v) k = some v := by
  induction l with
  | nil => simp [setKey, getKey]
  | cons hd tl ih =>
      obtain ⟨k', v'⟩ := hd
      by_cases h : k' = k <;> simp [setKey, getKey, h, ih]

theorem getKey_setKey_ne {α : Type} (l : List (String × α)) (k k' : String) (v : α)
    (h : k' ≠ k) : getKey (setKey l k v) k' = getKey l k' := by
  induction l with
  | nil => simp [setKey, getKey, Ne.symm h]
  | cons hd tl ih =>
      obtain ⟨k0, v0⟩ := hd
      by_cases h0 : k0 = k
      · subst h0
        simp [setKey, getKey, Ne.symm h]
      · simp [setKey, getKey, h0, ih]

theorem setKey_setKey {α : Type} (l : List (String × α)) (k : String) (v w : α) :
    setKey (setKey l k v) k w = setKey l k w := by
  induction l with
  | nil => simp [setKey]
  | cons hd tl ih =>
      obtain ⟨k0, v0⟩ := hd
      by_cases h0 : k0 = k <;> simp [setKey, h0, ih]

theorem getKey_delKey_self {α : Type} (l : List (String × α)) (k : String) :
    getKey (delKey l k) k = none := by
  induction l with
  | nil => simp [delKey, getKey]
  | cons hd tl ih =>
      obtain ⟨k0, v0⟩ := hd
      by_cases h0 : k0 = k <;> simp [delKey, getKey, h0, ih]

theorem getKey_delKey_ne {α : Type} (l : List (String × α)) (k k' : String)
    (h : k' ≠ k) : getKey (delKey l k) k' = getKey l k' := by
  induction l with
  | nil => simp [delKey]
  | cons hd tl ih =>
      obtain ⟨k0, v0⟩ := hd
      by_cases h0 : k0 = k
      · subst h0
        simp [delKey, getKey, Ne.symm h, ih]
      · simp [delKey, getKey, h0, ih]

/-- The settings document: `type Settings map[string]any`. -/
abbrev Settings : Type := List (String × JValue)

/-- Error taxonomy of the specification.  Each constructor names the class
a concrete Go error message falls into. -/
inductive GoError : Type where
  /-- Read, write or stat failures, including the message
  `cannot read config directory`. -/
  | ioError : GoError
  /-- The message `cannot parse settings file` (and, for the display
  preferences, `cannot parse config file`). -/
  | parseError : GoError
  /-- The message `backup file is not valid JSON`. -/
  | invalidBackup : GoError
  /-- The message `no backup files found`. -/
  | noBackupFound : GoError
deriving DecidableEq, Repr

/-- Models `encoding/json.Unmarshal` of a parsed value into a variable of
type `map[string]any` that starts out nil: a JSON object yields the map,
JSON `null` is accepted and leaves the map nil (`ok none`), and any other
top-level value is a type error. -/
def goUnmarshalMap : JValue → Except Unit (Option Settings)
  | .jobj m => .ok (some m)
  | .null => .ok none
  | _ => .error ()

namespace ConfigV

/-!
The statusline-entry editor variant of `internal/config/config.go`:
well-known key `"statusline"`, entry replaced wholesale on every set,
entry deleted wholesale on remove.
-/

/-- Embeds `GetStatuslineCommand` of `internal/config/config.go`. -/
def GetStatuslineCommand (settings : Settings) : String :=
  match getKey settings "statusline" with
  | none => ""
  | some v =>
      match v with
      | .jobj m =>
          match getKey m "command" with
          | some (.jstr c) => c
          | _ => ""
      | _ => ""

/-- Embeds `SetStatuslineCommand` of `internal/config/config.go`: the
whole entry is replaced by a fresh one-field object. -/
def SetStatuslineCommand (settings : Settings) (command : String) : Settings :=
  setKey settings "statusline" (.jobj [("command", .jstr command)])

/-- Embeds `RemoveStatusline` of `internal/config/config.go`. -/
def RemoveStatusline (settings : Settings) : Settings :=
  delKey settings "statusline"

/-- Embeds `IsStatuslineConfigured` of `internal/config/config.go`. -/
def IsStatuslineConfigured (settings : Settings) : Bool :=
  GetStatuslineCommand settings == "ccstatus"

end ConfigV

namespace StatuslineV

/-!
The statusline-entry editor variant embedded in
`internal/statusline/statusline.go` (second document): well-known key
`StatusLineKey = "statusLine"`, sibling fields preserved on set, command
field removed surgically on remove.
-/

/-- Embeds the constant `StatusLineKey`. -/
def StatusLineKey : String := "statusLine"

/-- Embeds `GetStatuslineCommand` of the preserving variant. -/
def GetStatuslineCommand (settings : Settings) : String :=
  match getKey settings StatusLineKey with
  | none => ""
  | some v =>
      match v with
      | .jobj m =>
          match getKey m "command" with
          | some (.jstr c) => c
          | _ => ""
      | _ => ""

/-- Embeds `SetStatuslineCommand` of the preserving variant: create the
entry when missing, replace it when it is not an object, otherwise update
only the `command` field of the existing object. -/
def SetStatuslineCommand (settings : Settings) (command : String) : Settings :=
  match getKey settings StatusLineKey with
  | none => setKey settings StatusLineKey (.jobj [("command", .jstr command)])
  | some v =>
      match v with
      | .jobj m =>
          setKey settings StatusLineKey (.jobj (setKey m "command" (.jstr command)))
      | _ => setKey settings StatusLineKey (.jobj [("command", .jstr command)])

/-- Embeds `RemoveStatusline` of the preserving variant: delete only the
`command` field, and the whole entry exactly when the object becomes
empty; a non-object entry is deleted wholesale. -/
def RemoveStatusline (settings : Settings) : Settings :=
  match getKey settings StatusLineKey with
  | none => settings
  | some v =>
      match v with
      | .jobj m =>
          let m2 := delKey m "command"
          if m2.length = 0 then delKey settings StatusLineKey
          else setKey settings StatusLineKey (.jobj m2)
      | _ => delKey settings StatusLineKey

/-- Embeds `IsStatuslineConfigured` of the preserving variant. -/
def IsStatuslineConfigured (settings : Settings) : Bool :=
  GetStatuslineCommand settings == "ccstatus"

/-- Embeds `HasStatuslineObject` of the preserving variant. -/
def HasStatuslineObject (settings : Settings) : Bool :=
  (getKey settings StatusLineKey).isSome

end StatuslineV

/-- The file system, as a mapping from absolute paths to raw file
contents; a missing key is a missing file. -/
abbrev FS : Type := List (String × String)

/-- Embeds the constant `SettingsFile`. -/
def SettingsFile : String := "settings.json"

/-- Embeds the constant named for the fixed backup file stem,
`"settings.backup"`, of `internal/config/config.go`. -/
def BackupPfx : String := "settings.backup"

/-- Embeds `filepath.Join` for the one-level joins the code performs. -/
def joinPath (dir name : String) : String := dir ++ "/" ++ name

/-- The path of `settings.json` inside the config directory `dir`,
as produced by `GetConfigPath`. -/
def settingsPath (dir : String) : String := joinPath dir SettingsFile

/-- The backup path `<dir>/<stem>.<timestamp>.json` built by
`CreateBackup`. -/
def backupFilePath (dir ts : String) : String :=
  joinPath dir (BackupPfx ++ "." ++ ts ++ ".json")

/-- Embeds `ReadSettings` of `internal/config/config.go`: a missing file
yields an empty mapping, an unreadable or unparsable file is an error,
and a nil map after unmarshalling (JSON `null`) is replaced by an empty
one.  `parse` abstracts the byte-level JSON syntax of `encoding/json`. -/
def ReadSettings (parse : String → Option JValue) (dir : String) (fs : FS) :
    Except GoError Settings :=
  match getKey fs (settingsPath dir) with
  | none => .ok []
  | some data =>
      match parse data with
      | none => .error .parseError
      | some v =>
          match goUnmarshalMap v with
          | .error _ => .error .parseError
          | .ok none => .ok []
          | .ok (some m) => .ok m

/-- Embeds `WriteSettings` of `internal/config/config.go`.  `serialize`
abstracts `json.MarshalIndent`; `writeOk` models whether the
`os.WriteFile` call succeeds, a failed write leaving the file as it was. -/
def WriteSettings (serialize : Settings → String) (dir : String) (writeOk : Bool)
    (fs : FS) (doc : Settings) : FS × Option GoError :=
  if writeOk then (setKey fs (settingsPath dir) (serialize doc), none)
  else (fs, some .ioError)

/-- Embeds `CreateBackup` of `internal/config/config.go`: nothing to do
when the settings file is absent, otherwise the raw settings bytes are
copied to `<stem>.<timestamp>.json` and that path is returned.  `ts` is
the formatted `time.Now()` timestamp; `copyOk` models the read and write
of the copy succeeding. -/
def CreateBackup (dir ts : String) (copyOk : Bool) (fs : FS) :
    FS × Except GoError String :=
  match getKey fs (settingsPath dir) with
  | none => (fs, .ok "")
  | some data =>
      if copyOk then
        (setKey fs (backupFilePath dir ts) data, .ok (backupFilePath dir ts))
      else (fs, .error .ioError)

/-- Embeds `RestoreFromBackup` of `internal/config/config.go`: read the
backup file, unmarshal it into a `Settings` map as a validity check, and
on success write the exact backup bytes over the live settings file. -/
def RestoreFromBackup (parse : String → Option JValue) (dir : String)
    (writeOk : Bool) (fs : FS) (bpath : String) : FS × Option GoError :=
  match getKey fs bpath with
  | none => (fs, some .ioError)
  | some data =>
      match parse data with
      | none => (fs, some .invalidBackup)
      | some v =>
          match goUnmarshalMap v with
          | .error _ => (fs, some .invalidBackup)
          | .ok _ =>
              if writeOk then (setKey fs (settingsPath dir) data, none)
              else (fs, some .ioError)

/-- One entry of `os.ReadDir`, with the data `GetLatestBackup` consults:
the name, whether it is a directory, whether `entry.Info()` succeeds, and
the modification time.  Time is in seconds with `0` for the zero
`time.Time` that the scan starts from. -/
structure DirEntry : Type where
  name : String
  isDir : Bool
  infoOk : Bool
  modTime : Nat
deriving DecidableEq, Repr

/-- The eligibility test of the `GetLatestBackup` loop: a non-directory
entry whose name strictly extends the backup stem and whose `Info()`
call succeeds. -/
def eligibleBackup (e : DirEntry) : Bool :=
  !e.isDir
    && decide (BackupPfx.length < e.name.length)
    && decide (e.name.take BackupPfx.length = BackupPfx)
    && e.infoOk

/-- The scan loop of `GetLatestBackup`, carrying the running
`latestBackup` path (empty string when none yet) and `latestTime`. -/
def scanBackups (dir : String) : List DirEntry → String → Nat → String
  | [], best, _ => best
  | e :: rest, best, bestTime =>
      if e.isDir then scanBackups dir rest best bestTime
      else if BackupPfx.length < e.name.length ∧
              e.name.take BackupPfx.length = BackupPfx then
        if e.infoOk then
          if bestTime < e.modTime then
            scanBackups dir rest (joinPath dir e.name) e.modTime
          else scanBackups dir rest best bestTime
        else scanBackups dir rest best bestTime
      else scanBackups dir rest best bestTime

/-- Embeds `GetLatestBackup` of `internal/config/config.go`.  `listing`
is the result of `os.ReadDir` on the config directory, `none` when the
directory cannot be read. -/
def GetLatestBackup (dir : String) (listing : Option (List DirEntry)) :
    Except GoError String :=
  match listing with
  | none => .error .ioError
  | some entries =>
      let best := scanBackups dir entries "" 0
      if best = "" then .error .noBackupFound else .ok best

/-- Embeds the struct `CCStatusConfig` of `internal/config/ccstatus.go`. -/
structure CCStatusConfig : Type where
  showSessionUsage : Bool
  showWeeklyUsage : Bool
  showResetTimes : Bool
  showGitBranch : Bool
deriving DecidableEq, Repr

/-- Embeds `DefaultCCStatusConfig` of `internal/config/ccstatus.go`. -/
def DefaultCCStatusConfig : CCStatusConfig :=
  { showSessionUsage := true
    showWeeklyUsage := true
    showResetTimes := true
    showGitBranch := false }

/-- Reading one boolean struct field during unmarshalling: absent means
the zero value `false`, a JSON boolean is taken, anything else is a type
error. -/
def readBoolField (m : Settings) (k : String) : Except Unit Bool :=
  match getKey m k with
  | none => .ok false
  | some (.jbool b) => .ok b
  | some _ => .error ()

/-- Models `encoding/json.Unmarshal` of a parsed value into a zero-valued
`CCStatusConfig` struct: an object fills the four `show_*` fields, JSON
`null` leaves the zero struct, any other top-level value is a type
error.  (Case-insensitive field matching is not modelled; no claim
depends on it.) -/
def goUnmarshalCC : JValue → Except Unit CCStatusConfig
  | .null => .ok ⟨false, false, false, false⟩
  | .jobj m => do
      let a ← readBoolField m "show_session_usage"
      let b ← readBoolField m "show_weekly_usage"
      let c ← readBoolField m "show_reset_times"
      let d ← readBoolField m "show_git_branch"
      .ok ⟨a, b, c, d⟩
  | _ => .error ()

/-- Embeds the constant `CCStatusConfigFile`. -/
def CCStatusConfigFile : String := "ccstatus.json"

/-- The path of `ccstatus.json` inside the config directory `dir`. -/
def ccstatusPath (dir : String) : String := joinPath dir CCStatusConfigFile

/-- Embeds `LoadCCStatusConfig` of `internal/config/ccstatus.go`: the
defaults are returned when the file is absent (no error) and alongside a
parse error when it cannot be parsed. -/
def LoadCCStatusConfig (parse : String → Option JValue) (dir : String) (fs : FS) :
    CCStatusConfig × Option GoError :=
  match getKey fs (ccstatusPath dir) with
  | none => (DefaultCCStatusConfig, none)
  | some data =>
      match parse data with
      | none => (DefaultCCStatusConfig, some .parseError)
      | some v =>
          match goUnmarshalCC v with
          | .error _ => (DefaultCCStatusConfig, some .parseError)
          | .ok cfg => (cfg, none)

/-- The environment a workflow run observes: the abstract JSON codec, the
config directory, the backup timestamp, the interactive answers, the
result of the backup scan, and whether each write succeeds. -/
structure Env : Type where
  parse : String → Option JValue
  serialize : Settings → String
  dir : String
  ts : String
  /-- The answer to the main confirmation prompt. -/
  confirmed : Bool
  /-- The answer to the restore confirmation prompt. -/
  confirmRestore : Bool
  /-- The menu choice in the uninstall flow (1 restore, 2 remove, 3 cancel). -/
  choice : Nat
  /-- The path `GetLatestBackup` returns, `none` when it fails. -/
  latestBackup : Option String
  copyOk : Bool
  settingsWriteOk : Bool
  restoreWriteOk : Bool

/-- The outcome of a workflow run: the final file system, plus ghost
flags recording whether the run reached a `WriteSettings` call on the
edited document, and whether a `CreateBackup` call returned without or
with an error. -/
structure RunResult : Type where
  fs : FS
  wroteDoc : Bool
  backupOk : Bool
  backupFailed : Bool

/-- Embeds `removeStatuslineStyled` of `cmd/config.go`: create a safety
backup, abort on backup failure, else remove the statusline entry and
persist the document. -/
def removeStatuslineRun (env : Env) (fs : FS) (settings : Settings) : RunResult :=
  match CreateBackup env.dir env.ts env.copyOk fs with
  | (_, .error _) => ⟨fs, false, false, true⟩
  | (fs1, .ok _) =>
      let doc := StatuslineV.RemoveStatusline settings
      let fs2 := (WriteSettings env.serialize env.dir env.settingsWriteOk fs1 doc).1
      ⟨fs2, true, true, false⟩

/-- Embeds the styled `runInstall` of the install command: detect the
file, read the settings, stop when already configured or not confirmed,
back up an existing file (aborting on failure), then set the command and
persist. -/
def runInstall (env : Env) (fs : FS) : RunResult :=
  let exists0 := (getKey fs (settingsPath env.dir)).isSome
  match ReadSettings env.parse env.dir fs with
  | .error _ => ⟨fs, false, false, false⟩
  | .ok settings =>
      if StatuslineV.IsStatuslineConfigured settings then ⟨fs, false, false, false⟩
      else if env.confirmed = false then ⟨fs, false, false, false⟩
      else if exists0 then
        match CreateBackup env.dir env.ts env.copyOk fs with
        | (_, .error _) => ⟨fs, false, false, true⟩
        | (fs1, .ok _) =>
            let doc := StatuslineV.SetStatuslineCommand settings "ccstatus"
            let fs2 := (WriteSettings env.serialize env.dir env.settingsWriteOk fs1 doc).1
            ⟨fs2, true, true, false⟩
      else
        let doc := StatuslineV.SetStatuslineCommand settings "ccstatus"
        let fs2 := (WriteSettings env.serialize env.dir env.settingsWriteOk fs doc).1
        ⟨fs2, true, false, false⟩

/-- Embeds the styled `restoreFromBackupStyled` of `cmd/config.go`:
confirm, then overwrite the live settings file from the backup. -/
def restoreRun (env : Env) (fs : FS) (bpath : String) : RunResult :=
  if env.confirmRestore = false then ⟨fs, false, false, false⟩
  else
    let fs1 := (RestoreFromBackup env.parse env.dir env.restoreWriteOk fs bpath).1
    ⟨fs1, false, false, false⟩

/-- Embeds the styled `runUninstall` of `cmd/config.go`: stop when the
file is missing, unreadable, or ccstatus is not the configured command;
otherwise offer restore/remove/cancel when a backup exists, or a
confirmed remove when none does. -/
def runUninstall (env : Env) (fs : FS) : RunResult :=
  if (getKey fs (settingsPath env.dir)).isSome = false then ⟨fs, false, false, false⟩
  else
    match ReadSettings env.parse env.dir fs with
    | .error _ => ⟨fs, false, false, false⟩
    | .ok settings =>
        let cmd := StatuslineV.GetStatuslineCommand settings
        if cmd = "" then ⟨fs, false, false, false⟩
        else if cmd ≠ "ccstatus" then ⟨fs, false, false, false⟩
        else
          match env.latestBackup with
          | some bpath =>
              if env.choice = 1 then restoreRun env fs bpath
              else if env.choice = 2 then removeStatuslineRun env fs settings
              else ⟨fs, false, false, false⟩
          | none =>
              if env.confirmed = false then ⟨fs, false, false, false⟩
              else removeStatuslineRun env fs settings

/-! Unfolding lemmas for the preserving editor, one per source branch. -/

theorem setCommand_eq_of_none (s : Settings) (c : String)
    (h : getKey s StatuslineV.StatusLineKey = none) :
    StatuslineV.SetStatuslineCommand s c
      = setKey s StatuslineV.StatusLineKey (JValue.jobj [("command", JValue.jstr c)]) := by
  unfold StatuslineV.SetStatuslineCommand
  rw [h]

theorem setCommand_eq_of_obj (s m : Settings) (c : String)
    (h : getKey s StatuslineV.StatusLineKey = some (JValue.jobj m)) :
    StatuslineV.SetStatuslineCommand s c
      = setKey s StatuslineV.StatusLineKey
          (JValue.jobj (setKey m "command" (JValue.jstr c))) := by
  unfold StatuslineV.SetStatuslineCommand
  rw [h]

theorem setCommand_eq_of_nonobj (s : Settings) (v : JValue) (c : String)
    (h : getKey s StatuslineV.StatusLineKey = some v) (hv : isObjVal v = false) :
    StatuslineV.SetStatuslineCommand s c
      = setKey s StatuslineV.StatusLineKey (JValue.jobj [("command", JValue.jstr c)]) := by
  unfold StatuslineV.SetStatuslineCommand
  rw [h]
  cases v <;> first | rfl | exact absurd hv (by simp [isObjVal])

theorem removeCommand_eq_of_none (s : Settings)
    (h : getKey s StatuslineV.StatusLineKey = none) :
    StatuslineV.RemoveStatusline s = s := by
  unfold StatuslineV.RemoveStatusline
  rw [h]

theorem removeCommand_eq_of_obj (s m : Settings)
    (h : getKey s StatuslineV.StatusLineKey = some (JValue.jobj m)) :
    StatuslineV.RemoveStatusline s
      = if (delKey m "command").length = 0 then delKey s StatuslineV.StatusLineKey
        else setKey s StatuslineV.StatusLineKey (JValue.jobj (delKey m "command")) := by
  unfold StatuslineV.RemoveStatusline
  rw [h]

theorem removeCommand_eq_of_nonobj (s : Settings) (v : JValue)
    (h : getKey s StatuslineV.StatusLineKey = some v) (hv : isObjVal v = false) :
    StatuslineV.RemoveStatusline s = delKey s StatuslineV.StatusLineKey := by
  unfold StatuslineV.RemoveStatusline
  rw [h]
  cases v <;> first | rfl | exact absurd hv (by simp [isObjVal])

/-- Claim C1: when the well-known statusline entry exists and is a JSON
object, `SetStatuslineCommand` turns it into that object with only its
`command` field set to the new command, preserving every sibling field of
the entry and every other top-level key of the document. -/
theorem setCommand_frame (s m : Settings) (c : String)
    (h : getKey s StatuslineV.StatusLineKey = some (JValue.jobj m)) :
    getKey (StatuslineV.SetStatuslineCommand s c) StatuslineV.StatusLineKey
        = some (JValue.jobj (setKey m "command" (JValue.jstr c)))
    ∧ getKey (setKey m "command" (JValue.jstr c)) "command" = some (JValue.jstr c)
    ∧ (∀ f, f ≠ "command" →
        getKey (setKey m "command" (JValue.jstr c)) f = getKey m f)
    ∧ (∀ k, k ≠ StatuslineV.StatusLineKey →
        getKey (StatuslineV.SetStatuslineCommand s c) k = getKey s k) := by
  rw [setCommand_eq_of_obj s m c h]
  exact ⟨getKey_setKey_self .., getKey_setKey_self ..,
    fun f hf => getKey_setKey_ne m "command" f (JValue.jstr c) hf,
    fun k hk => getKey_setKey_ne s StatuslineV.StatusLineKey k _ hk⟩

/-- Witness for C1 at the merge-preservation example of the spec. -/
theorem setCommand_frame_witness :
    getKey
        (StatuslineV.SetStatuslineCommand
          [("statusLine", JValue.jobj [("command", JValue.jstr "x"), ("extra", JValue.jstr "y")]),
           ("otherTool", JValue.jstr "keep")] "z")
        StatuslineV.StatusLineKey
      = some (JValue.jobj [("command", JValue.jstr "z"), ("extra", JValue.jstr "y")])
    ∧ getKey
        (StatuslineV.SetStatuslineCommand
          [("statusLine", JValue.jobj [("command", JValue.jstr "x"), ("extra", JValue.jstr "y")]),
           ("otherTool", JValue.jstr "keep")] "z")
        "otherTool"
      = some (JValue.jstr "keep") :=
  ⟨(setCommand_frame
      [("statusLine", JValue.jobj [("command", JValue.jstr "x"), ("extra", JValue.jstr "y")]),
       ("otherTool", JValue.jstr "keep")]
      [("command", JValue.jstr "x"), ("extra", JValue.jstr "y")] "z" rfl).1,
   ((setCommand_frame
      [("statusLine", JValue.jobj [("command", JValue.jstr "x"), ("extra", JValue.jstr "y")]),
       ("otherTool", JValue.jstr "keep")]
      [("command", JValue.jstr "x"), ("extra", JValue.jstr "y")] "z" rfl).2.2.2
      "otherTool" (by decide)).trans rfl⟩

/-- Claim C2: `RemoveStatusline` is a no-op when the entry is absent,
deletes the whole entry when it is present but not an object, and when it
is an object deletes only the `command` field, dropping the entry exactly
when the object becomes empty and otherwise keeping the sibling fields;
other top-level keys are never touched.  The function is total. -/
theorem removeCommand_spec (s m : Settings) :
    (getKey s StatuslineV.StatusLineKey = none → StatuslineV.RemoveStatusline s = s)
    ∧ (∀ v, getKey s StatuslineV.StatusLineKey = some v → isObjVal v = false →
        getKey (StatuslineV.RemoveStatusline s) StatuslineV.StatusLineKey = none
        ∧ ∀ k, k ≠ StatuslineV.StatusLineKey →
            getKey (StatuslineV.RemoveStatusline s) k = getKey s k)
    ∧ (getKey s StatuslineV.StatusLineKey = some (JValue.jobj m) →
        (delKey m "command" = [] →
          getKey (StatuslineV.RemoveStatusline s) StatuslineV.StatusLineKey = none)
        ∧ (delKey m "command" ≠ [] →
            getKey (StatuslineV.RemoveStatusline s) StatuslineV.StatusLineKey
              = some (JValue.jobj (delKey m "command"))
            ∧ getKey (delKey m "command") "command" = none
            ∧ ∀ f, f ≠ "command" →
                getKey (delKey m "command") f = getKey m f)
        ∧ ∀ k, k ≠ StatuslineV.StatusLineKey →
            getKey (StatuslineV.RemoveStatusline s) k = getKey s k) := by
  refine ⟨fun h => removeCommand_eq_of_none s h, fun v h hv => ?_, fun h => ?_⟩
  · rw [removeCommand_eq_of_nonobj s v h hv]
    exact ⟨getKey_delKey_self .., fun k hk => getKey_delKey_ne s _ k hk⟩
  · rw [removeCommand_eq_of_obj s m h]
    refine ⟨fun he => ?_, fun hne => ?_, fun k hk => ?_⟩
    · simp [he, getKey_delKey_self]
    · rw [if_neg (by simpa [List.length_eq_zero] using hne)]
      exact ⟨getKey_setKey_self .., getKey_delKey_self ..,
        fun f hf => getKey_delKey_ne m "command" f hf⟩
    · by_cases he : (delKey m "command").length = 0
      · rw [if_pos he]
        exact getKey_delKey_ne s _ k hk
      · rw [if_neg he]
        exact getKey_setKey_ne s _ k _ hk

/-- Witness for C2 exercising all three branches: absent entry, non-object
entry, object entry with a sibling, and object entry that becomes empty. -/
theorem removeCommand_spec_witness :
    StatuslineV.RemoveStatusline [("other", JValue.jstr "v")] = [("other", JValue.jstr "v")]
    ∧ getKey (StatuslineV.RemoveStatusline [("statusLine", JValue.jstr "bad")])
        StatuslineV.StatusLineKey = none
    ∧ getKey
        (StatuslineV.RemoveStatusline
          [("statusLine", JValue.jobj [("command", JValue.jstr "x"), ("extra", JValue.jstr "y")])])
        StatuslineV.StatusLineKey
      = some (JValue.jobj [("extra", JValue.jstr "y")])
    ∧ getKey
        (StatuslineV.RemoveStatusline
          [("statusLine", JValue.jobj [("command", JValue.jstr "x")])])
        StatuslineV.StatusLineKey = none :=
  ⟨(removeCommand_spec [("other", JValue.jstr "v")] []).1 rfl,
   ((removeCommand_spec [("statusLine", JValue.jstr "bad")] []).2.1
      (JValue.jstr "bad") rfl rfl).1,
   (((removeCommand_spec
        [("statusLine", JValue.jobj [("command", JValue.jstr "x"), ("extra", JValue.jstr "y")])]
        [("command", JValue.jstr "x"), ("extra", JValue.jstr "y")]).2.2 rfl).2.1
      (List.cons_ne_nil _ _)).1,
   ((removeCommand_spec
        [("statusLine", JValue.jobj [("command", JValue.jstr "x")])]
        [("command", JValue.jstr "x")]).2.2 rfl).1 rfl⟩

theorem setCommand_idem_of_singleton (s : Settings) (c : String)
    (h : StatuslineV.SetStatuslineCommand s c
        = setKey s StatuslineV.StatusLineKey (JValue.jobj [("command", JValue.jstr c)])) :
    StatuslineV.SetStatuslineCommand (StatuslineV.SetStatuslineCommand s c) c
      = StatuslineV.SetStatuslineCommand s c := by
  rw [h, setCommand_eq_of_obj _ _ c (getKey_setKey_self ..), setKey_setKey]
  simp [setKey]

/-- Claim C9: installing twice with the same command yields the same
document as installing once, for both observed editor variants. -/
theorem setCommand_idempotent (s : Settings) (c : String) :
    StatuslineV.SetStatuslineCommand (StatuslineV.SetStatuslineCommand s c) c
      = StatuslineV.SetStatuslineCommand s c
    ∧ ConfigV.SetStatuslineCommand (ConfigV.SetStatuslineCommand s c) c
      = ConfigV.SetStatuslineCommand s c := by
  constructor
  · cases h : getKey s StatuslineV.StatusLineKey with
    | none => exact setCommand_idem_of_singleton s c (setCommand_eq_of_none s c h)
    | some v =>
        cases v
        case jobj m =>
          rw [setCommand_eq_of_obj s m c h,
            setCommand_eq_of_obj _ _ c (getKey_setKey_self ..), setKey_setKey,
            setKey_setKey]
        all_goals
          exact setCommand_idem_of_singleton s c (setCommand_eq_of_nonobj s _ c h rfl)
  · simp [ConfigV.SetStatuslineCommand, setKey_setKey]

/-- The replacing editor variant, generalised over the well-known key it
writes; at key `"statusline"` it coincides with
`ConfigV.SetStatuslineCommand`. -/
def setCommandReplacing (key : String) (s : Settings) (c : String) : Settings :=
  setKey s key (.jobj [("command", .jstr c)])

/-- The preserving editor variant, generalised over the well-known key it
writes; at key `"statusLine"` it coincides with
`StatuslineV.SetStatuslineCommand`. -/
def setCommandPreserving (key : String) (s : Settings) (c : String) : Settings :=
  match getKey s key with
  | none => setKey s key (.jobj [("command", .jstr c)])
  | some v =>
      match v with
      | .jobj m => setKey s key (.jobj (setKey m "command" (.jstr c)))
      | _ => setKey s key (.jobj [("command", .jstr c)])

/-- Counterexample to claim C3 as stated: the two variants also differ in
the name of the well-known key (`statusline` versus `statusLine`), so on
the empty document, which contains neither key, they produce different
documents. -/
theorem variantsDisagreeOnKey :
    getKey (ConfigV.SetStatuslineCommand [] "x") "statusLine" = none
    ∧ getKey (StatuslineV.SetStatuslineCommand [] "x") "statusLine"
        = some (JValue.jobj [("command", JValue.jstr "x")])
    ∧ ConfigV.SetStatuslineCommand [] "x" ≠ StatuslineV.SetStatuslineCommand [] "x" := by
  refine ⟨rfl, rfl, fun h => ?_⟩
  have h1 : getKey (ConfigV.SetStatuslineCommand [] "x") "statusLine" = none := rfl
  have h2 : getKey (StatuslineV.SetStatuslineCommand [] "x") "statusLine"
      = some (JValue.jobj [("command", JValue.jstr "x")]) := rfl
  rw [h] at h1
  rw [h1] at h2
  exact Option.noConfusion h2

/-- Claim C3 amended: abstracting both variants over a common well-known
key, on every document that does not contain that key the replacing and
the preserving `setCommand` produce equal documents; the concrete
variants are instances of the abstractions at their respective keys. -/
theorem variants_agree_on_missing_entry (key : String) (s : Settings) (c : String)
    (h : getKey s key = none) :
    setCommandReplacing key s c = setCommandPreserving key s c
    ∧ (∀ s0 c0, ConfigV.SetStatuslineCommand s0 c0 = setCommandReplacing "statusline" s0 c0)
    ∧ (∀ s0 c0, StatuslineV.SetStatuslineCommand s0 c0 = setCommandPreserving "statusLine" s0 c0) := by
  refine ⟨?_, fun s0 c0 => rfl, fun s0 c0 => rfl⟩
  unfold setCommandPreserving setCommandReplacing
  rw [h]

/-- Witness for the amended C3 on a concrete one-key document. -/
theorem variants_agree_on_missing_entry_witness :
    setCommandReplacing "k" [("a", JValue.jstr "b")] "x"
      = setCommandPreserving "k" [("a", JValue.jstr "b")] "x" :=
  (variants_agree_on_missing_entry "k" [("a", JValue.jstr "b")] "x" rfl).1

/-- A concrete fragment of a JSON parser, used to instantiate the
abstract `parse` parameter in witnesses: it recognises a few byte strings
and rejects everything else. -/
def parseLit (s : String) : Option JValue :=
  if s = "NULL" then some JValue.null
  else if s = "OBJ" then some (JValue.jobj [])
  else if s = "ARR" then some (JValue.jarr [])
  else if s = "CFG" then
    some (JValue.jobj [("statusLine", JValue.jobj [("command", JValue.jstr "ccstatus")])])
  else none

/-- A concrete serialiser, used to instantiate the abstract `serialize`
parameter in witnesses. -/
def serLit : Settings → String := fun _ => "SER"

/-- Counterexample to claim C5 as stated: a settings file whose contents
parse to JSON `null` is valid JSON with a non-object top level, yet
`ReadSettings` returns the empty mapping instead of a parse error
(mirroring the `settings == nil` check in the source). -/
theorem readSettingsAcceptsNull :
    parseLit "NULL" = some JValue.null
    ∧ isObjVal JValue.null = false
    ∧ ReadSettings parseLit "d" [(settingsPath "d", "NULL")] = .ok [] :=
  ⟨rfl, rfl, rfl⟩

/-- Claim C5 amended: `ReadSettings` returns the empty mapping when the
settings file is absent, fails with a parse error when the contents are
invalid JSON or parse to a top-level value that is neither an object nor
`null`, returns the parsed mapping for an object, and returns the empty
mapping for JSON `null`. -/
theorem readSettings_spec (parse : String → Option JValue) (dir : String) (fs : FS) :
    (getKey fs (settingsPath dir) = none → ReadSettings parse dir fs = .ok [])
    ∧ (∀ data, getKey fs (settingsPath dir) = some data → parse data = none →
        ReadSettings parse dir fs = .error .parseError)
    ∧ (∀ data v, getKey fs (settingsPath dir) = some data → parse data = some v →
        isObjVal v = false → v ≠ JValue.null →
        ReadSettings parse dir fs = .error .parseError)
    ∧ (∀ data m, getKey fs (settingsPath dir) = some data →
        parse data = some (JValue.jobj m) → ReadSettings parse dir fs = .ok m)
    ∧ (∀ data, getKey fs (settingsPath dir) = some data →
        parse data = some JValue.null → ReadSettings parse dir fs = .ok []) := by
  refine ⟨fun h => ?_, fun data h hp => ?_, fun data v h hp hv hn => ?_,
    fun data m h hp => ?_, fun data h hp => ?_⟩
  · simp only [ReadSettings, h]
  · simp only [ReadSettings, h, hp]
  · simp only [ReadSettings, h, hp]
    cases v with
    | null => exact absurd rfl hn
    | jobj m => exact absurd hv (by simp [isObjVal])
    | _ => rfl
  · simp only [ReadSettings, h, hp]
    rfl
  · simp only [ReadSettings, h, hp]
    rfl

/-- Witness for the amended C5: first-run empty mapping, invalid JSON,
and a top-level array. -/
theorem readSettings_spec_witness :
    ReadSettings parseLit "d" [] = .ok []
    ∧ ReadSettings parseLit "d" [(settingsPath "d", "BAD")] = .error .parseError
    ∧ ReadSettings parseLit "d" [(settingsPath "d", "ARR")] = .error .parseError :=
  ⟨(readSettings_spec parseLit "d" []).1 rfl,
   (readSettings_spec parseLit "d" [(settingsPath "d", "BAD")]).2.1 "BAD" rfl rfl,
   (readSettings_spec parseLit "d" [(settingsPath "d", "ARR")]).2.2.1 "ARR"
     (JValue.jarr []) rfl rfl rfl (fun hh => JValue.noConfusion hh)⟩

/-- Counterexample to claim C4 as stated: a backup file whose contents
parse to JSON `null` is not a JSON object, yet `RestoreFromBackup`
accepts it and overwrites the live settings file with it, because Go
unmarshalling of `null` into a map reports no error. -/
theorem restoreAcceptsNull :
    parseLit "NULL" = some JValue.null
    ∧ isObjVal JValue.null = false
    ∧ RestoreFromBackup parseLit "d" true
        [("d/b.json", "NULL"), (settingsPath "d", "OLD")] "d/b.json"
      = ([("d/b.json", "NULL"), (settingsPath "d", "NULL")], none) :=
  ⟨rfl, rfl, rfl⟩

/-- Claim C4 amended: `RestoreFromBackup` validates that the backup
parses as a JSON object or JSON `null`, fails with the invalid-backup
error otherwise, leaves the whole file system (hence the live settings
file) unchanged on any failure, and on success overwrites the live
settings file with exactly the backup bytes. -/
theorem restore_spec (parse : String → Option JValue) (dir : String)
    (writeOk : Bool) (fs : FS) (bpath : String) :
    ((RestoreFromBackup parse dir writeOk fs bpath).2 ≠ none →
        (RestoreFromBackup parse dir writeOk fs bpath).1 = fs)
    ∧ (∀ data, getKey fs bpath = some data → parse data = none →
        RestoreFromBackup parse dir writeOk fs bpath = (fs, some .invalidBackup))
    ∧ (∀ data v, getKey fs bpath = some data → parse data = some v →
        isObjVal v = false → v ≠ JValue.null →
        RestoreFromBackup parse dir writeOk fs bpath = (fs, some .invalidBackup))
    ∧ (∀ data m, getKey fs bpath = some data → parse data = some (JValue.jobj m) →
        writeOk = true →
        RestoreFromBackup parse dir writeOk fs bpath
          = (setKey fs (settingsPath dir) data, none)
        ∧ getKey (setKey fs (settingsPath dir) data) (settingsPath dir) = some data) := by
  refine ⟨?_, fun data h hp => ?_, fun data v h hp hv hn => ?_, fun data m h hp hw => ?_⟩
  · unfold RestoreFromBackup
    split
    · simp
    · split
      · simp
      · split
        · simp
        · split
          · simp
          · simp
  · simp only [RestoreFromBackup, h, hp]
  · simp only [RestoreFromBackup, h, hp]
    cases v with
    | null => exact absurd rfl hn
    | jobj m => exact absurd hv (by simp [isObjVal])
    | _ => rfl
  · simp only [RestoreFromBackup, h, hp, hw, goUnmarshalMap, if_true]
    exact ⟨by trivial, getKey_setKey_self ..⟩

/-- Witness for the amended C4: an invalid backup is rejected with the
file system untouched, and a valid object backup is copied byte-exactly
over the live settings file. -/
theorem restore_spec_witness :
    RestoreFromBackup parseLit "d" true [("d/b.json", "BAD"), (settingsPath "d", "OLD")] "d/b.json"
      = ([("d/b.json", "BAD"), (settingsPath "d", "OLD")], some .invalidBackup)
    ∧ RestoreFromBackup parseLit "d" true [("d/b.json", "OBJ"), (settingsPath "d", "OLD")] "d/b.json"
      = ([("d/b.json", "OBJ"), (settingsPath "d", "OBJ")], none) :=
  ⟨(restore_spec parseLit "d" true [("d/b.json", "BAD"), (settingsPath "d", "OLD")]
      "d/b.json").2.1 "BAD" rfl rfl,
   (((restore_spec parseLit "d" true [("d/b.json", "OBJ"), (settingsPath "d", "OLD")]
      "d/b.json").2.2.2 "OBJ" [] rfl rfl rfl).1).trans rfl⟩

/-- Claim C10: when the display-preferences file is absent the loader
returns the fixed defaults with no error; when it is present but
unparsable, or parses to a value the struct cannot be unmarshalled from,
the returned preferences are again the fixed defaults; and the defaults
are session true, weekly true, reset true, git-branch false. -/
theorem loadCC_defaults (parse : String → Option JValue) (dir : String) (fs : FS) :
    (getKey fs (ccstatusPath dir) = none →
        LoadCCStatusConfig parse dir fs = (DefaultCCStatusConfig, none))
    ∧ (∀ data, getKey fs (ccstatusPath dir) = some data → parse data = none →
        (LoadCCStatusConfig parse dir fs).1 = DefaultCCStatusConfig)
    ∧ (∀ data v, getKey fs (ccstatusPath dir) = some data → parse data = some v →
        goUnmarshalCC v = .error () →
        (LoadCCStatusConfig parse dir fs).1 = DefaultCCStatusConfig)
    ∧ DefaultCCStatusConfig.showSessionUsage = true
    ∧ DefaultCCStatusConfig.showWeeklyUsage = true
    ∧ DefaultCCStatusConfig.showResetTimes = true
    ∧ DefaultCCStatusConfig.showGitBranch = false := by
  refine ⟨fun h => ?_, fun data h hp => ?_, fun data v h hp hu => ?_, rfl, rfl, rfl, rfl⟩
  · simp only [LoadCCStatusConfig, h]
  · simp only [LoadCCStatusConfig, h, hp]
  · simp only [LoadCCStatusConfig, h, hp, hu]

/-- Witness for C10: an absent file and an unparsable file. -/
theorem loadCC_defaults_witness :
    LoadCCStatusConfig parseLit "d" [] = (DefaultCCStatusConfig, none)
    ∧ (LoadCCStatusConfig parseLit "d" [(ccstatusPath "d", "BAD")]).1
        = DefaultCCStatusConfig :=
  ⟨(loadCC_defaults parseLit "d" []).1 rfl,
   (loadCC_defaults parseLit "d" [(ccstatusPath "d", "BAD")]).2.1 "BAD" rfl rfl⟩

theorem joinPath_ne_empty (dir name : String) : joinPath dir name ≠ "" := by
  intro h
  have hlen := congrArg String.length h
  have hsl : ("/" : String).length = 1 := by decide
  have hz : ("" : String).length = 0 := by decide
  simp only [joinPath, String.length_append, hsl, hz] at hlen
  omega

/-- One step of the `GetLatestBackup` loop, phrased through the
eligibility test. -/
theorem scanBackups_cons (dir : String) (e : DirEntry) (rest : List DirEntry)
    (best : String) (t : Nat) :
    scanBackups dir (e :: rest) best t =
      if eligibleBackup e = true then
        (if t < e.modTime then scanBackups dir rest (joinPath dir e.name) e.modTime
         else scanBackups dir rest best t)
      else scanBackups dir rest best t := by
  by_cases hd : e.isDir
  · simp [scanBackups, eligibleBackup, hd]
  · by_cases hn : BackupPfx.length < e.name.length ∧
        e.name.take BackupPfx.length = BackupPfx
    · by_cases hi : e.infoOk
      · simp [scanBackups, eligibleBackup, hd, hn, hn.1, hn.2, hi]
      · simp [scanBackups, eligibleBackup, hd, hn, hn.1, hn.2, hi]
    · have : ¬ (decide (BackupPfx.length < e.name.length)
          && decide (e.name.take BackupPfx.length = BackupPfx)) = true := by
        simpa [Bool.and_eq_true, decide_eq_true_iff] using hn
      simp [scanBackups, eligibleBackup, hd, hn, this]

/-- Loop invariant for the backup scan: the result is either the running
best, with every eligible entry of the remaining list no newer than the
running time, or the joined path of an eligible entry of the list that is
strictly newer than the running time and at least as new as every
eligible entry of the list. -/
theorem scanBackups_spec (dir : String) (l : List DirEntry) :
    ∀ (best : String) (t : Nat),
      (scanBackups dir l best t = best
        ∧ ∀ e ∈ l, eligibleBackup e = true → e.modTime ≤ t)
      ∨ (∃ e, e ∈ l ∧ eligibleBackup e = true
          ∧ scanBackups dir l best t = joinPath dir e.name
          ∧ t < e.modTime
          ∧ ∀ e2 ∈ l, eligibleBackup e2 = true → e2.modTime ≤ e.modTime) := by
  induction l with
  | nil =>
      intro best t
      left
      exact ⟨rfl, by simp⟩
  | cons e0 rest ih =>
      intro best t
      by_cases helig : eligibleBackup e0 = true
      · by_cases ht0 : t < e0.modTime
        · rcases ih (joinPath dir e0.name) e0.modTime with ⟨h1, h2⟩ |
            ⟨e, he, helig2, hscan, ht2, hmax⟩
          · right
            refine ⟨e0, List.mem_cons_self .., helig, ?_, ht0, ?_⟩
            · rw [scanBackups_cons, if_pos helig, if_pos ht0, h1]
            · intro e2 he2 helig3
              rcases List.mem_cons.mp he2 with rfl | hmem
              · exact Nat.le_refl _
              · exact h2 e2 hmem helig3
          · right
            refine ⟨e, List.mem_cons_of_mem _ he, helig2, ?_,
              Nat.lt_trans ht0 ht2, ?_⟩
            · rw [scanBackups_cons, if_pos helig, if_pos ht0, hscan]
            · intro e2 he2 helig3
              rcases List.mem_cons.mp he2 with rfl | hmem
              · exact Nat.le_of_lt ht2
              · exact hmax e2 hmem helig3
        · rcases ih best t with ⟨h1, h2⟩ | ⟨e, he, helig2, hscan, ht2, hmax⟩
          · left
            constructor
            · rw [scanBackups_cons, if_pos helig, if_neg ht0, h1]
            · intro e2 he2 helig3
              rcases List.mem_cons.mp he2 with rfl | hmem
              · exact Nat.le_of_not_lt ht0
              · exact h2 e2 hmem helig3
          · right
            refine ⟨e, List.mem_cons_of_mem _ he, helig2, ?_, ht2, ?_⟩
            · rw [scanBackups_cons, if_pos helig, if_neg ht0, hscan]
            · intro e2 he2 helig3
              rcases List.mem_cons.mp he2 with rfl | hmem
              · exact Nat.le_of_lt (Nat.lt_of_le_of_lt (Nat.le_of_not_lt ht0) ht2)
              · exact hmax e2 hmem helig3
      · rcases ih best t with ⟨h1, h2⟩ | ⟨e, he, helig2, hscan, ht2, hmax⟩
        · left
          constructor
          · rw [scanBackups_cons, if_neg helig, h1]
          · intro e2 he2 helig3
            rcases List.mem_cons.mp he2 with rfl | hmem
            · exact absurd helig3 helig
            · exact h2 e2 hmem helig3
        · right
          refine ⟨e, List.mem_cons_of_mem _ he, helig2, ?_, ht2, ?_⟩
          · rw [scanBackups_cons, if_neg helig, hscan]
          · intro e2 he2 helig3
            rcases List.mem_cons.mp he2 with rfl | hmem
            · exact absurd helig3 helig
            · exact hmax e2 hmem helig3

/-- Counterexample to claim C6 as stated: when the settings directory
cannot be read, `GetLatestBackup` fails with the IO error class (Go
message: cannot read config directory), not with the no-backup-found
error the claim requires. -/
theorem getLatestBackupDirError :
    GetLatestBackup "d" none = .error .ioError
    ∧ GoError.ioError ≠ GoError.noBackupFound :=
  ⟨rfl, by decide⟩

/-- Claim C6 amended: among directory entries that are files whose name
strictly extends the backup stem (and whose `Info()` call succeeds), all
with modification times after the Go zero time, `GetLatestBackup`
returns the joined path of one with maximal modification time,
regardless of name order; it fails with the no-backup-found error when
no such entry exists, and with an IO-class error (not no-backup-found)
when the directory cannot be read. -/
theorem getLatestBackup_spec (dir : String) (entries : List DirEntry)
    (hpos : ∀ e ∈ entries, eligibleBackup e = true → 0 < e.modTime) :
    (GetLatestBackup dir none = .error .ioError)
    ∧ ((∀ e ∈ entries, eligibleBackup e = false) →
        GetLatestBackup dir (some entries) = .error .noBackupFound)
    ∧ (∀ e0, e0 ∈ entries → eligibleBackup e0 = true →
        ∃ e, e ∈ entries ∧ eligibleBackup e = true
          ∧ GetLatestBackup dir (some entries) = .ok (joinPath dir e.name)
          ∧ ∀ e2 ∈ entries, eligibleBackup e2 = true → e2.modTime ≤ e.modTime) := by
  refine ⟨rfl, fun hnone => ?_, fun e0 he0 helig0 => ?_⟩
  · rcases scanBackups_spec dir entries "" 0 with ⟨h1, _⟩ |
      ⟨e, he, helig, _, _, _⟩
    · simp [GetLatestBackup, h1]
    · have := hnone e he
      rw [helig] at this
      exact Bool.noConfusion this
  · rcases scanBackups_spec dir entries "" 0 with ⟨_, h2⟩ |
      ⟨e, he, helig, hscan, _, hmax⟩
    · have := Nat.lt_of_lt_of_le (hpos e0 he0 helig0) (h2 e0 he0 helig0)
      exact absurd this (Nat.lt_irrefl 0)
    · refine ⟨e, he, helig, ?_, hmax⟩
      simp only [GetLatestBackup, hscan, if_neg (joinPath_ne_empty dir e.name)]

/-- Concrete directory listing for the C6 witness: three backups with
distinct times out of lexical order, a non-backup file, and a file named
exactly like the backup stem. -/
def entsW : List DirEntry :=
  [⟨"settings.backup.20250103-000000.json", false, true, 30⟩,
   ⟨"settings.backup.20250101-000000.json", false, true, 50⟩,
   ⟨"settings.backup.20250102-000000.json", false, true, 40⟩,
   ⟨"notes.txt", false, true, 99⟩,
   ⟨"settings.backup", false, true, 77⟩]

/-- Witness for the amended C6: on `entsW` the scan returns the backup
with the greatest modification time although its name sorts first, and a
directory with no eligible entry yields the no-backup-found error. -/
theorem getLatestBackup_spec_witness :
    (∃ e, e ∈ entsW ∧ eligibleBackup e = true
      ∧ GetLatestBackup "d" (some entsW) = .ok (joinPath "d" e.name)
      ∧ ∀ e2 ∈ entsW, eligibleBackup e2 = true → e2.modTime ≤ e.modTime)
    ∧ GetLatestBackup "d" (some entsW)
        = .ok "d/settings.backup.20250101-000000.json"
    ∧ GetLatestBackup "d" (some [⟨"settings.json", false, true, 9⟩])
        = .error .noBackupFound :=
  ⟨(getLatestBackup_spec "d" entsW (by decide)).2.2
      ⟨"settings.backup.20250103-000000.json", false, true, 30⟩
      (by decide) (by decide),
   rfl,
   (getLatestBackup_spec "d" [⟨"settings.json", false, true, 9⟩]
      (by decide)).2.1 (by decide)⟩

theorem settingsPath_ne_backupFilePath (dir ts : String) :
    settingsPath dir ≠ backupFilePath dir ts := by
  intro h
  have hlen := congrArg String.length h
  have h1 : ("settings.json" : String).length = 13 := by decide
  have h2 : ("settings.backup" : String).length = 15 := by decide
  have h3 : ("." : String).length = 1 := by decide
  have h4 : (".json" : String).length = 5 := by decide
  have h5 : ("/" : String).length = 1 := by decide
  simp only [settingsPath, backupFilePath, joinPath, SettingsFile, BackupPfx,
    String.length_append, h1, h2, h3, h4, h5] at hlen
  omega

/-- Counterexample to claim C8 as stated: two backups created within the
same second use the same `<stem>.<timestamp>.json` name, so the second
`CreateBackup` overwrites the first backup file. -/
theorem createBackupSameSecondOverwrite :
    getKey [(settingsPath "d", "NEW"), (backupFilePath "d" "T", "OLDBK")]
        (backupFilePath "d" "T") = some "OLDBK"
    ∧ (CreateBackup "d" "T" true
        [(settingsPath "d", "NEW"), (backupFilePath "d" "T", "OLDBK")]).1
      = [(settingsPath "d", "NEW"), (backupFilePath "d" "T", "NEW")]
    ∧ ("OLDBK" : String) ≠ "NEW" :=
  ⟨rfl, rfl, by decide⟩

/-- Claim C8 amended: when the live settings file exists and the copy
succeeds, `CreateBackup` writes its raw bytes to
`<stem>.<timestamp>.json` and returns that path, touching no other
path; provided no existing backup already occupies that path (distinct
second-level timestamps), every existing file survives unchanged; and
neither persisting the settings document nor restoring a backup ever
writes to any backup path.  A second backup within the same second
reuses the name and overwrites the first. -/
theorem backup_immutability (dir ts ts2 : String) (fs : FS) (copyOk writeOk : Bool)
    (serialize : Settings → String) (doc : Settings)
    (parse : String → Option JValue) (bpath : String) (data : String)
    (hsrc : getKey fs (settingsPath dir) = some data) :
    (copyOk = true →
        CreateBackup dir ts copyOk fs
          = (setKey fs (backupFilePath dir ts) data, .ok (backupFilePath dir ts))
        ∧ getKey (CreateBackup dir ts copyOk fs).1 (backupFilePath dir ts) = some data)
    ∧ (∀ p, p ≠ backupFilePath dir ts →
        getKey (CreateBackup dir ts copyOk fs).1 p = getKey fs p)
    ∧ (getKey fs (backupFilePath dir ts) = none →
        ∀ p c0, getKey fs p = some c0 →
          getKey (CreateBackup dir ts copyOk fs).1 p = some c0)
    ∧ (getKey (WriteSettings serialize dir writeOk fs doc).1 (backupFilePath dir ts2)
        = getKey fs (backupFilePath dir ts2))
    ∧ (getKey (RestoreFromBackup parse dir writeOk fs bpath).1 (backupFilePath dir ts2)
        = getKey fs (backupFilePath dir ts2)) := by
  have hne : backupFilePath dir ts2 ≠ settingsPath dir :=
    fun h => settingsPath_ne_backupFilePath dir ts2 h.symm
  have frame : ∀ p, p ≠ backupFilePath dir ts →
      getKey (CreateBackup dir ts copyOk fs).1 p = getKey fs p := by
    intro p hp
    simp only [CreateBackup, hsrc]
    cases copyOk with
    | true => simpa using getKey_setKey_ne fs (backupFilePath dir ts) p data hp
    | false => rfl
  refine ⟨fun hc => ?_, frame, fun hfresh p c0 hp => ?_, ?_, ?_⟩
  · simp only [CreateBackup, hsrc, hc, if_true]
    exact ⟨by trivial, getKey_setKey_self ..⟩
  · have hp2 : p ≠ backupFilePath dir ts := by
      intro hh
      rw [hh, hfresh] at hp
      exact Option.noConfusion hp
    rw [frame p hp2, hp]
  · cases writeOk with
    | true =>
        simpa [WriteSettings] using
          getKey_setKey_ne fs (settingsPath dir) (backupFilePath dir ts2)
            (serialize doc) hne
    | false => rfl
  · unfold RestoreFromBackup
    split
    · rfl
    · split
      · rfl
      · split
        · rfl
        · cases writeOk with
          | true =>
              simpa using
                getKey_setKey_ne fs (settingsPath dir) (backupFilePath dir ts2) _ hne
          | false => rfl

/-- Witness for the amended C8 on a concrete file system holding a live
settings file and one earlier backup: the fresh backup is written with
the live bytes, the earlier backup survives, and persisting the document
leaves it untouched. -/
theorem backup_immutability_witness :
    getKey (CreateBackup "d" "T2" true
        [(settingsPath "d", "CUR"), (backupFilePath "d" "T1", "B1")]).1
      (backupFilePath "d" "T2") = some "CUR"
    ∧ getKey (CreateBackup "d" "T2" true
        [(settingsPath "d", "CUR"), (backupFilePath "d" "T1", "B1")]).1
      (backupFilePath "d" "T1") = some "B1"
    ∧ getKey (WriteSettings serLit "d" true
        [(settingsPath "d", "CUR"), (backupFilePath "d" "T1", "B1")] []).1
      (backupFilePath "d" "T1") = some "B1" :=
  ⟨((backup_immutability "d" "T2" "T1"
      [(settingsPath "d", "CUR"), (backupFilePath "d" "T1", "B1")]
      true true serLit [] parseLit "p" "CUR" rfl).1 rfl).2,
   (backup_immutability "d" "T2" "T1"
      [(settingsPath "d", "CUR"), (backupFilePath "d" "T1", "B1")]
      true true serLit [] parseLit "p" "CUR" rfl).2.2.1 rfl
      (backupFilePath "d" "T1") "B1" rfl,
   ((backup_immutability "d" "T2" "T1"
      [(settingsPath "d", "CUR"), (backupFilePath "d" "T1", "B1")]
      true true serLit [] parseLit "p" "CUR" rfl).2.2.2.1).trans rfl⟩

theorem removeRun_flags (env : Env) (fs : FS) (settings : Settings) :
    ((removeStatuslineRun env fs settings).wroteDoc = true →
      (removeStatuslineRun env fs settings).backupOk = true)
    ∧ ((removeStatuslineRun env fs settings).backupFailed = true →
      (removeStatuslineRun env fs settings).fs = fs) := by
  unfold removeStatuslineRun
  split
  · exact ⟨fun h => Bool.noConfusion h, fun _ => rfl⟩
  · exact ⟨fun _ => rfl, fun h => Bool.noConfusion h⟩

theorem runInstall_flags (env : Env) (fs : FS)
    (hex : (getKey fs (settingsPath env.dir)).isSome = true) :
    ((runInstall env fs).wroteDoc = true → (runInstall env fs).backupOk = true)
    ∧ ((runInstall env fs).backupFailed = true → (runInstall env fs).fs = fs) := by
  unfold runInstall
  simp only [hex]
  repeat' split
  all_goals first
    | exact ⟨fun h => Bool.noConfusion h, fun _ => rfl⟩
    | exact ⟨fun _ => rfl, fun h => Bool.noConfusion h⟩
    | simp_all

theorem runUninstall_flags (env : Env) (fs : FS) :
    ((runUninstall env fs).wroteDoc = true → (runUninstall env fs).backupOk = true)
    ∧ ((runUninstall env fs).backupFailed = true → (runUninstall env fs).fs = fs) := by
  unfold runUninstall restoreRun
  dsimp only
  repeat' split
  all_goals first
    | exact ⟨fun h => Bool.noConfusion h, fun _ => rfl⟩
    | exact ⟨fun h => Bool.noConfusion h, fun h => Bool.noConfusion h⟩
    | exact removeRun_flags env fs _

/-- Claim C7: in the install and uninstall workflows, when the settings
file existed beforehand, the settings document is persisted only after a
backup creation attempt has succeeded, and a failed backup attempt
aborts the run with the file system unchanged.  The uninstall restore
path never persists the edited document (it copies backup bytes), so it
is covered vacuously. -/
theorem backup_gates_persistence (env : Env) (fs : FS)
    (hex : (getKey fs (settingsPath env.dir)).isSome = true) :
    ((runInstall env fs).wroteDoc = true → (runInstall env fs).backupOk = true)
    ∧ ((runInstall env fs).backupFailed = true → (runInstall env fs).fs = fs)
    ∧ ((runUninstall env fs).wroteDoc = true → (runUninstall env fs).backupOk = true)
    ∧ ((runUninstall env fs).backupFailed = true → (runUninstall env fs).fs = fs) := by
  obtain ⟨h1, h2⟩ := runInstall_flags env fs hex
  obtain ⟨h3, h4⟩ := runUninstall_flags env fs
  exact ⟨h1, h2, h3, h4⟩

/-- A concrete workflow environment in which the backup copy fails. -/
def envW : Env :=
  { parse := parseLit
    serialize := serLit
    dir := "d"
    ts := "T"
    confirmed := true
    confirmRestore := true
    choice := 2
    latestBackup := some (backupFilePath "d" "T0")
    copyOk := false
    settingsWriteOk := true
    restoreWriteOk := true }

/-- Witness for C7: with an existing settings file and a failing backup
copy, both the install run and the remove path of the uninstall run
abort, leaving the file system exactly as it was. -/
theorem backup_gates_persistence_witness :
    (runInstall envW [(settingsPath "d", "OBJ")]).backupFailed = true
    ∧ (runInstall envW [(settingsPath "d", "OBJ")]).fs = [(settingsPath "d", "OBJ")]
    ∧ (runUninstall envW [(settingsPath "d", "CFG")]).backupFailed = true
    ∧ (runUninstall envW [(settingsPath "d", "CFG")]).fs = [(settingsPath "d", "CFG")] :=
  ⟨rfl,
   (backup_gates_persistence envW [(settingsPath "d", "OBJ")] rfl).2.1 rfl,
   rfl,
   (backup_gates_persistence envW [(settingsPath "d", "CFG")] rfl).2.2.2 rfl⟩

end CCStatus
